import Mathlib

/-!
Verification of the attendease backend core against its specification.

The Lean definitions below are shallow embeddings of the JavaScript source:
pure functions become Lean functions, database query results are passed in
as explicit lists of rows, and JS `null`/`undefined` become `Option`.
-/

set_option maxHeartbeats 1000000

namespace Attendease

/-- Punch event type, mirroring the `PUNCH_TYPES` constant (`IN` / `OUT`). -/
inductive PunchType where
  | IN : PunchType
  | OUT : PunchType
deriving DecidableEq, Repr

/-- One row of the `attendance` table, restricted to the columns the punch
logic reads.  Timestamps are abstract instants (`Nat`); `date` is a day
number (`Int`), one unit per calendar day.  JS `null` is `Option.none`. -/
structure AttendanceRecord where
  attendance_id : Nat
  emp_id : Nat
  date : Int
  punch_in_time : Option Nat
  punch_out_time : Option Nat
deriving DecidableEq, Repr

/-- Rejection payload produced by `validatePunchAttempt`: an HTTP status and
a human-readable error string. -/
structure PunchRejection where
  status : Nat
  error : String
deriving DecidableEq, Repr

/-- Embedding of `validatePunchAttempt(attendance, punchType)`: `none` means
the attempt passes validation, `some r` is the rejection returned.  A missing
record (`attendance` falsy) rejects with 400 for OUT and 404 for IN; then the
three guard clauses run in source order. -/
def validatePunchAttempt : Option AttendanceRecord → PunchType → Option PunchRejection
  | none, pt =>
      if pt = PunchType.OUT then some ⟨400, "Must punch in first"⟩
      else some ⟨404, "Attendance record not found"⟩
  | some att, pt =>
      if pt = PunchType.IN ∧ att.punch_in_time.isSome then
        some ⟨400, "Already punched in today"⟩
      else if pt = PunchType.OUT ∧ att.punch_out_time.isSome then
        some ⟨400, "Already punched out today"⟩
      else if pt = PunchType.OUT ∧ att.punch_in_time = none then
        some ⟨400, "Must punch in first"⟩
      else
        none

/-- JS `String.prototype.trim`: strip leading and trailing whitespace. -/
def jsTrim (s : String) : String :=
  String.mk (((s.data.dropWhile Char.isWhitespace).reverse.dropWhile Char.isWhitespace).reverse)

/-- JS `String.prototype.toUpperCase` on ASCII text. -/
def jsToUpper (s : String) : String :=
  String.mk (s.data.map Char.toUpper)

/-- Embedding of the face-attendance punch-type normalisation:
`(rawPunchType || "").toString().trim().toUpperCase()`.  A missing value is
treated as the empty string. -/
def normalizePunchTypeInput (raw : Option String) : String :=
  jsToUpper (jsTrim (raw.getD ""))

/-- Embedding of `punchType = normalizedPunchType === "OUT" ? OUT : IN`. -/
def resolvePunchType (raw : Option String) : PunchType :=
  if normalizePunchTypeInput raw = "OUT" then PunchType.OUT else PunchType.IN

/-- `r` sorts strictly after `a` under `ORDER BY a.date DESC,
a.attendance_id DESC`: a later date, or the same date with a larger id. -/
def RecordLater (a r : AttendanceRecord) : Prop :=
  a.date < r.date ∨ (a.date = r.date ∧ a.attendance_id < r.attendance_id)

instance (a r : AttendanceRecord) : Decidable (RecordLater a r) := by
  unfold RecordLater; infer_instance

/-- One step of scanning for the first row of the descending order:
keep the incumbent unless the new row sorts strictly after it. -/
def selectLatestStep (acc : Option AttendanceRecord) (r : AttendanceRecord) :
    Option AttendanceRecord :=
  match acc with
  | none => some r
  | some best => if RecordLater best r then some r else some best

/-- `ORDER BY a.date DESC, a.attendance_id DESC LIMIT 1` over a result set. -/
def selectLatest (rows : List AttendanceRecord) : Option AttendanceRecord :=
  rows.foldl selectLatestStep none

/-- The query `a.emp_id = $1 AND a.date = $2::date` of
`getOrCreateAttendanceRecord`, over the attendance table. -/
def rowForDate (db : List AttendanceRecord) (emp : Nat) (target : Int) :
    Option AttendanceRecord :=
  selectLatest (db.filter fun r => r.emp_id = emp ∧ r.date = target)

/-- The `fetchRecentOpenAttendance` WHERE condition: same employee, date in
`[target − 1 day, target]`, punched in, not punched out. -/
def isOpenCarry (emp : Nat) (target : Int) (r : AttendanceRecord) : Prop :=
  r.emp_id = emp ∧ target - 1 ≤ r.date ∧ r.date ≤ target
    ∧ r.punch_in_time.isSome ∧ r.punch_out_time = none

instance (emp : Nat) (target : Int) (r : AttendanceRecord) :
    Decidable (isOpenCarry emp target r) := by
  unfold isOpenCarry; infer_instance

/-- Embedding of `fetchRecentOpenAttendance(empId, date)`: `null` if the
employee id is falsy, else the first row of the open-carry query. -/
def fetchRecentOpenAttendance (db : List AttendanceRecord) (emp : Nat) (target : Int) :
    Option AttendanceRecord :=
  if emp = 0 then none
  else selectLatest (db.filter fun r => isOpenCarry emp target r)

/-- Embedding of `getOrCreateAttendanceRecord(emp_id, date, { punchType,
createIfMissing })` restricted to the columns of `AttendanceRecord`: look up
the target-date row; on a punch-out with that row missing or not punched in,
prefer the most recent open carry-forward row; otherwise return the
target-date row, refuse to create for a punch-out when `createIfMissing` is
false, and otherwise create a fresh row (with id `freshId`) whose punch
columns are null.  The `if (!emp_id) throw` guard is modelled as `none`. -/
def getOrCreateAttendanceRecord (db : List AttendanceRecord) (emp : Nat) (target : Int)
    (punchType : Option PunchType) (createIfMissing : Bool) (freshId : Nat) :
    Option AttendanceRecord :=
  let attendance := rowForDate db emp target
  let needsOpenCarryForward : Bool :=
    (punchType == some PunchType.OUT) &&
      (match attendance with
       | none => true
       | some a => a.punch_in_time == none)
  let carried : Option AttendanceRecord :=
    if needsOpenCarryForward then fetchRecentOpenAttendance db emp target else none
  match carried with
  | some c => some c
  | none =>
    match attendance with
    | some a => some a
    | none =>
      if !createIfMissing && punchType == some PunchType.OUT then none
      else if emp = 0 then none
      else some ⟨freshId, emp, target, none, none⟩

/-- JS `String.prototype.toLowerCase` on ASCII text. -/
def jsToLower (s : String) : String :=
  String.mk (s.data.map Char.toLower)

/-- One row of the permission query in `fetchUserPermissions`: role-derived
rows come back with `NULL::int AS city_id`, direct user grants with their
optional `city_id`. -/
structure PermissionRow where
  module : String
  action : String
  city_id : Option Int
deriving DecidableEq, Repr

/-- The map key `` `${row.module}:${row.action}`.toLowerCase() ``. -/
def permKey (r : PermissionRow) : String :=
  jsToLower (r.module ++ ":" ++ r.action)

/-- The per-key scope accumulated in `cityMap`: `all` flag plus a set of
city ids. -/
structure ScopeEntry where
  all : Bool
  ids : Finset Int
deriving DecidableEq

/-- The per-row mutation of one `cityMap` entry: a null city sets `all` and
clears the ids; a concrete city is added unless `all` is already set. -/
def entryStep (e : Option ScopeEntry) (cid : Option Int) : ScopeEntry :=
  let scope := e.getD ⟨false, ∅⟩
  match cid with
  | none => ⟨true, ∅⟩
  | some c => if scope.all then scope else ⟨scope.all, insert c scope.ids⟩

/-- One iteration of the `rows.forEach` loop building `cityMap` in
`fetchUserPermissions`, as a map update. -/
def cityMapStep (m : String → Option ScopeEntry) (row : PermissionRow) :
    String → Option ScopeEntry :=
  fun k => if k = permKey row then some (entryStep (m (permKey row)) row.city_id) else m k

/-- The `cityMap` of `fetchUserPermissions`, as a function from keys to
optional scope entries (absent key = `none`). -/
def fetchUserPermissionsCityMap (rows : List PermissionRow) :
    String → Option ScopeEntry :=
  rows.foldl cityMapStep (fun _ => none)

/-- The `city:view` key looked up by the city-scope middleware. -/
def CITY_PERMISSION_KEY : String := "city:view"

/-- The authenticated user attached by the token middleware. -/
structure AuthUser where
  user_id : Option Nat
  role : String
deriving DecidableEq, Repr

/-- Embedding of `normalizeScope(scope)`: a missing entry or an `all` entry
collapses to the unrestricted scope, otherwise the ids are kept. -/
def normalizeScope (scope : Option ScopeEntry) : ScopeEntry :=
  match scope with
  | none => ⟨true, ∅⟩
  | some s => if s.all then ⟨true, ∅⟩ else ⟨false, s.ids⟩

/-- Embedding of `buildCityScopeForUser(user)`: falsy `user_id` gives the
empty non-all scope; an admin role short-circuits to `all`; otherwise the
`city:view` entry of the user's permission `cityMap` is normalised.  The
permission rows stand for the result of the `fetchUserPermissions` query. -/
def buildCityScopeForUser (user : AuthUser) (rows : List PermissionRow) : ScopeEntry :=
  if user.user_id.getD 0 = 0 then ⟨false, ∅⟩
  else if jsToLower user.role = "admin" then ⟨true, ∅⟩
  else normalizeScope (fetchUserPermissionsCityMap rows CITY_PERMISSION_KEY)

/-- Modelled from the claim's words (C1), for comparison with
`buildCityScopeForUser`: city scope is `all` iff the user is admin or holds
a `city:view` permission with null city; otherwise the union of explicit
`UserCityAccess` grants and the city ids of `city:view`-qualified permission
rows. -/
def cityScopeClaimed (user : AuthUser) (rows : List PermissionRow)
    (cityAccess : Finset Int) : ScopeEntry :=
  if jsToLower user.role = "admin" then ⟨true, ∅⟩
  else if rows.any (fun r => permKey r = CITY_PERMISSION_KEY ∧ r.city_id = none) then ⟨true, ∅⟩
  else ⟨false, cityAccess ∪
    ((rows.filter fun r => permKey r = CITY_PERMISSION_KEY).filterMap fun r => r.city_id).toFinset⟩

/-- A calendar date (proleptic Gregorian), as produced by the `Intl`
formatter in the configured attendance timezone. -/
structure CivilDate where
  year : Int
  month : Nat
  day : Nat
deriving DecidableEq, Repr

/-- Gregorian leap-year rule, as implemented by the JS `Date` object the
rollover arithmetic relies on. -/
def isLeapYear (y : Int) : Bool :=
  y % 4 = 0 ∧ (¬ y % 100 = 0 ∨ y % 400 = 0)

/-- Number of days in a month (1-12) of a given year. -/
def lastDayOfMonth (y : Int) : Nat → Nat
  | 1 => 31
  | 2 => if isLeapYear y then 29 else 28
  | 3 => 31
  | 4 => 30
  | 5 => 31
  | 6 => 30
  | 7 => 31
  | 8 => 31
  | 9 => 30
  | 10 => 31
  | 11 => 30
  | 12 => 31
  | _ => 0

/-- A well-formed calendar date. -/
def IsValidDate (d : CivilDate) : Prop :=
  1 ≤ d.month ∧ d.month ≤ 12 ∧ 1 ≤ d.day ∧ d.day ≤ lastDayOfMonth d.year d.month

instance (d : CivilDate) : Decidable (IsValidDate d) := by
  unfold IsValidDate; infer_instance

/-- Embedding of `utcDate.setUTCDate(utcDate.getUTCDate() - 1)` applied to a
valid date: the previous calendar day under Gregorian rules. -/
def prevCivilDay (d : CivilDate) : CivilDate :=
  if 1 < d.day then ⟨d.year, d.month, d.day - 1⟩
  else if 1 < d.month then ⟨d.year, d.month - 1, lastDayOfMonth d.year (d.month - 1)⟩
  else ⟨d.year - 1, 12, 31⟩

/-- The next calendar day under Gregorian rules (independent successor used
to state what "minus one day" means). -/
def nextCivilDay (d : CivilDate) : CivilDate :=
  if d.day < lastDayOfMonth d.year d.month then ⟨d.year, d.month, d.day + 1⟩
  else if d.month < 12 then ⟨d.year, d.month + 1, 1⟩
  else ⟨d.year + 1, 1, 1⟩

/-- The local (attendance-timezone) wall-clock parts `formatDate` reads from
`getAttendanceDateParts`: calendar date plus hour of day. -/
structure LocalParts where
  year : Int
  month : Nat
  day : Nat
  hour : Int
deriving DecidableEq, Repr

/-- The calendar-date portion of the local parts. -/
def LocalParts.date (p : LocalParts) : CivilDate :=
  ⟨p.year, p.month, p.day⟩

/-- Embedding of `formatDate(date, { rolloverHour })`: the local calendar
date, decremented by one day when the rollover hour is a number in 0..23 and
the local hour is strictly below it. -/
def formatDate (p : LocalParts) (rolloverHour : Int) : CivilDate :=
  if 0 ≤ rolloverHour ∧ rolloverHour ≤ 23 ∧ p.hour < rolloverHour then
    prevCivilDay p.date
  else
    p.date

/-- A Rekognition face bounding box: relative coordinates (fractions of the
image dimensions), as read by `computeCropRegion`. -/
structure BoundingBox where
  Left : ℚ
  Top : ℚ
  Width : ℚ
  Height : ℚ
deriving DecidableEq, Repr

/-- JS `Math.round`: round half-up. -/
def jsRound (q : ℚ) : Int :=
  ⌊q + 1 / 2⌋

/-- A pixel rectangle passed to the sharp `extract` call. -/
structure CropRegion where
  left : Int
  top : Int
  width : Int
  height : Int
deriving DecidableEq, Repr

/-- Embedding of `computeCropRegion(boundingBox, imageWidth, imageHeight,
paddingRatio)` (dimension-validity guard, padded box, clamping to the image,
and the positivity check before returning). -/
def computeCropRegion (bb : BoundingBox) (imageWidth imageHeight : Int)
    (paddingRatio : ℚ) : Option CropRegion :=
  if imageWidth ≤ 0 ∨ imageHeight ≤ 0 then none
  else
    let baseWidth := max (jsRound (bb.Width * imageWidth)) 1
    let baseHeight := max (jsRound (bb.Height * imageHeight)) 1
    let padX := jsRound ((baseWidth : ℚ) * paddingRatio)
    let padY := jsRound ((baseHeight : ℚ) * paddingRatio)
    let left := max (jsRound (bb.Left * imageWidth) - padX) 0
    let top := max (jsRound (bb.Top * imageHeight) - padY) 0
    let width := min (imageWidth - left) (baseWidth + padX * 2)
    let height := min (imageHeight - top) (baseHeight + padY * 2)
    if width ≤ 0 ∨ height ≤ 0 then none
    else some ⟨left, top, width, height⟩

/-- Per-face status reported by the group-mode punch loop. -/
inductive FaceStatus where
  | punched
  | unmatched
  | duplicate
  | skipped
  | error
deriving DecidableEq, Repr

/-- One entry of the group-mode `results` array (restricted to the fields
the loop logic determines). -/
structure FaceResult where
  faceIndex : Nat
  status : FaceStatus
  employeeId : Option Nat
deriving DecidableEq, Repr

/-- What the external services yield for one detected face, as seen by the
group-mode loop body: crop failure, crop-processing error, no gallery match
(or a match with no employee record), a resolved employee whose punch
validation either fails or passes, or a face-search error. -/
inductive FaceEvent where
  | cropFail
  | cropError
  | unmatched
  | resolved (emp : Nat) (validationFails : Bool)
  | searchError
deriving DecidableEq, Repr

/-- One iteration of the group-mode `for` loop: produces the per-face result
and the updated `processedEmployees` set.  A resolved employee already in
the set yields `duplicate` without any state transition; otherwise a failed
validation yields `skipped` and a passed one `punched`, both marking the
employee processed. -/
def groupStep (processed : Finset Nat) (idx : Nat) (ev : FaceEvent) :
    FaceResult × Finset Nat :=
  match ev with
  | .cropFail => (⟨idx, .skipped, none⟩, processed)
  | .cropError => (⟨idx, .error, none⟩, processed)
  | .unmatched => (⟨idx, .unmatched, none⟩, processed)
  | .searchError => (⟨idx, .error, none⟩, processed)
  | .resolved emp vfail =>
      if emp ∈ processed then (⟨idx, .duplicate, some emp⟩, processed)
      else if vfail then (⟨idx, .skipped, some emp⟩, insert emp processed)
      else (⟨idx, .punched, some emp⟩, insert emp processed)

/-- The `processedEmployees` update of one loop iteration. -/
def processedStep (processed : Finset Nat) (ev : FaceEvent) : Finset Nat :=
  (groupStep processed 0 ev).2

/-- The group-mode loop over the detected faces, carrying the
`processedEmployees` set and the 1-based `faceIndex`. -/
def runGroupFaces : Finset Nat → Nat → List FaceEvent → List FaceResult
  | _, _, [] => []
  | processed, idx, ev :: evs =>
      let step := groupStep processed idx ev
      step.1 :: runGroupFaces step.2 (idx + 1) evs

/-- The group-mode `results` array: the loop starts with an empty processed
set and `faceIndex = index + 1`. -/
def groupModeResults (events : List FaceEvent) : List FaceResult :=
  runGroupFaces ∅ 1 events

/-- `results.filter((entry) => entry.status === "punched").length`. -/
def punchedCount (results : List FaceResult) : Nat :=
  (results.filter fun r => r.status = FaceStatus.punched).length

/-- The group-mode response fields derived from the loop results. -/
structure GroupResponse where
  success : Bool
  punched_count : Nat
  total_faces : Nat
deriving DecidableEq, Repr

/-- Embedding of the group-mode response construction:
`success: punchedCount > 0`, with the counts. -/
def groupModeResponse (events : List FaceEvent) : GroupResponse :=
  ⟨punchedCount (groupModeResults events) > 0,
   punchedCount (groupModeResults events),
   events.length⟩

/-- A value bound into the parameterised SQL query. -/
inductive SqlParam where
  | text (s : String)
  | int (n : Int)
  | intList (ns : List Int)
deriving DecidableEq, Repr

/-- Decimal-integer fragment of JS `Number(string)`: whitespace-only input
is 0, an optional sign followed by digits parses, anything else is NaN
(`none`).  Fractional and exotic numeric literals are outside the model —
the id filters only ever receive integer text. -/
def jsNumberInt (s : String) : Option Int :=
  let t := jsTrim s
  if t = "" then some 0
  else
    let core : Int × List Char :=
      match t.data with
      | '-' :: rest => (-1, rest)
      | '+' :: rest => (1, rest)
      | l => (1, l)
    if core.2 ≠ [] ∧ core.2.all Char.isDigit then
      some (core.1 * (core.2.foldl (fun acc c => acc * 10 + (c.toNat - '0'.toNat) : Nat → Char → Nat) 0 : Nat))
    else none

/-- Embedding of `parseIntegerParam(value)`: missing, empty or (trimmed,
lower-cased) `"all"` is `null`; otherwise the JS numeric parse, `null` when
not finite. -/
def parseIntegerParam (value : Option String) : Option Int :=
  match value with
  | none => none
  | some s =>
      if s = "" then none
      else if jsToLower (jsTrim s) = "all" then none
      else jsNumberInt s

/-- Embedding of `parseBooleanFlag(value)`. -/
def parseBooleanFlag (value : Option String) : Option Bool :=
  match value with
  | none => none
  | some s =>
      let normalized := jsToLower (jsTrim s)
      if normalized = "" then none
      else if normalized = "true" ∨ normalized = "1" ∨ normalized = "yes" ∨ normalized = "y" then
        some true
      else if normalized = "false" ∨ normalized = "0" ∨ normalized = "no" ∨ normalized = "n" then
        some false
      else none

/-- JS `a || b || ... || ""` over optional strings: the first non-empty
string, else the empty string. -/
def firstNonEmpty : List (Option String) → String
  | [] => ""
  | x :: rest =>
      match x with
      | some s => if s = "" then firstNonEmpty rest else s
      | none => firstNonEmpty rest

/-- The `filters` / `params` accumulator of the report filter builders
(the `metadata` echo object is omitted from the model). -/
structure FilterState where
  filters : List String
  params : List SqlParam
deriving DecidableEq, Repr

/-- Embedding of the `addTextFilter` closure: trim, skip empty, optionally
wrap in `%`, push the parameter, and append the built clause. -/
def addTextFilter (st : FilterState) (rawValue : Option String)
    (builder : String → String) (wildcard : Bool) : FilterState :=
  let value := jsTrim (rawValue.getD "")
  if value = "" then st
  else
    let finalValue := if wildcard then "%" ++ value ++ "%" else value
    let params := st.params ++ [SqlParam.text finalValue]
    let placeholder := "$" ++ toString params.length
    ⟨st.filters ++ [builder placeholder], params⟩

/-- Embedding of the `addNumericFilter` closure. -/
def addNumericFilter (st : FilterState) (rawValue : Option String)
    (builder : String → String) : FilterState :=
  match parseIntegerParam rawValue with
  | none => st
  | some value =>
      let params := st.params ++ [SqlParam.int value]
      let placeholder := "$" ++ toString params.length
      ⟨st.filters ++ [builder placeholder], params⟩

/-- The query-string fields read by the attendance filter builder. -/
structure ReportQuery where
  date : Option String
  start_date : Option String
  date_from : Option String
  from_date : Option String
  fromAlias : Option String
  end_date : Option String
  date_to : Option String
  to_date : Option String
  toAlias : Option String
  zone_id : Option String
  ward_id : Option String
  city_id : Option String
  supervisor_id : Option String
  employee_id : Option String
  emp_code : Option String
  zone_name : Option String
  ward_name : Option String
  city_name : Option String
  supervisor_name : Option String
  search : Option String
  location : Option String
  has_punch_in : Option String
  has_punch_out : Option String
deriving DecidableEq, Repr

/-- The caller's city scope as handed to the report builders: `all` flag and
a plain array of city ids. -/
structure CityScopeList where
  all : Bool
  ids : List Int
deriving DecidableEq, Repr

/-- The final scope-injection block shared by both builders: nothing for a
missing or `all` scope; the contradiction `1 = 0` for an empty id set; else
a pushed array parameter and a `c.city_id = ANY($N)` clause. -/
def applyCityScopeFilter (st : FilterState) (cityScope : Option CityScopeList) :
    FilterState :=
  match cityScope with
  | none => st
  | some cs =>
      if cs.all then st
      else if cs.ids = [] then ⟨st.filters ++ ["1 = 0"], st.params⟩
      else
        let params := st.params ++ [SqlParam.intList cs.ids]
        let placeholder := "$" ++ toString params.length
        ⟨st.filters ++ ["c.city_id = ANY(" ++ placeholder ++ ")"], params⟩

/-- All filters of `buildAttendanceFilters` before the city-scope block, in
source order. -/
def attendanceBaseFilters (query : ReportQuery) (locationExpression : String) :
    FilterState :=
  let date := jsTrim (query.date.getD "")
  let startDate :=
    jsTrim (firstNonEmpty [query.start_date, query.date_from, query.from_date, query.fromAlias])
  let endDate :=
    jsTrim (firstNonEmpty [query.end_date, query.date_to, query.to_date, query.toAlias])
  let st : FilterState := ⟨[], []⟩
  let st :=
    if date ≠ "" then addTextFilter st (some date) (fun ph => "a.date = " ++ ph) false
    else
      addTextFilter
        (addTextFilter st (some startDate) (fun ph => "a.date >= " ++ ph) false)
        (some endDate) (fun ph => "a.date <= " ++ ph) false
  let st := addNumericFilter st query.zone_id (fun ph => "z.zone_id = " ++ ph)
  let st := addNumericFilter st query.ward_id (fun ph => "w.ward_id = " ++ ph)
  let st := addNumericFilter st query.city_id (fun ph => "c.city_id = " ++ ph)
  let st := addNumericFilter st query.supervisor_id (fun ph => "supervisor.user_id = " ++ ph)
  let st := addNumericFilter st query.employee_id (fun ph => "a.emp_id = " ++ ph)
  let st := addTextFilter st query.emp_code (fun ph => "e.emp_code = " ++ ph) false
  let st := addTextFilter st query.zone_name (fun ph => "z.zone_name ILIKE " ++ ph) true
  let st := addTextFilter st query.ward_name (fun ph => "w.ward_name ILIKE " ++ ph) true
  let st := addTextFilter st query.city_name (fun ph => "c.city_name ILIKE " ++ ph) true
  let st := addTextFilter st query.supervisor_name
    (fun ph => "COALESCE(supervisor.name, '') ILIKE " ++ ph) true
  let searchTerm := jsTrim (query.search.getD "")
  let st :=
    if searchTerm = "" then st
    else
      let params := st.params ++ [SqlParam.text ("%" ++ searchTerm ++ "%")]
      let placeholder := "$" ++ toString params.length
      ⟨st.filters ++
        ["(e.name ILIKE " ++ placeholder ++ " OR e.emp_code ILIKE " ++ placeholder ++ ")"],
       params⟩
  let locationSearch := jsTrim (query.location.getD "")
  let st :=
    if locationSearch = "" then st
    else
      let params := st.params ++ [SqlParam.text ("%" ++ locationSearch ++ "%")]
      let placeholder := "$" ++ toString params.length
      ⟨st.filters ++ ["(" ++ locationExpression ++ " ILIKE " ++ placeholder ++ ")"], params⟩
  let st :=
    match parseBooleanFlag query.has_punch_in with
    | none => st
    | some b =>
        ⟨st.filters ++
          [if b then "a.punch_in_time IS NOT NULL" else "a.punch_in_time IS NULL"],
         st.params⟩
  match parseBooleanFlag query.has_punch_out with
  | none => st
  | some b =>
      ⟨st.filters ++
        [if b then "a.punch_out_time IS NOT NULL" else "a.punch_out_time IS NULL"],
       st.params⟩

/-- Assembling the returned `whereClause` from the collected filters. -/
def assembleWhereClause (filters : List String) : String :=
  if filters = [] then "" else "WHERE " ++ String.intercalate " AND " filters

/-- Embedding of `buildAttendanceFilters(query, { locationExpression,
cityScope })`, returning the `whereClause` and the bound parameters. -/
def buildAttendanceFilters (query : ReportQuery) (locationExpression : String)
    (cityScope : Option CityScopeList) : String × List SqlParam :=
  let st := applyCityScopeFilter (attendanceBaseFilters query locationExpression) cityScope
  (assembleWhereClause st.filters, st.params)

/-- All filters of `buildSupervisorSummaryFilters` before the city-scope
block, in source order. -/
def supervisorSummaryBaseFilters (query : ReportQuery) : FilterState :=
  let st : FilterState := ⟨[], []⟩
  let st := addNumericFilter st query.city_id (fun ph => "c.city_id = " ++ ph)
  let st := addNumericFilter st query.zone_id (fun ph => "z.zone_id = " ++ ph)
  let st := addNumericFilter st query.ward_id (fun ph => "w.ward_id = " ++ ph)
  let st := addNumericFilter st query.supervisor_id (fun ph => "supervisor.user_id = " ++ ph)
  addTextFilter st query.supervisor_name
    (fun ph => "COALESCE(supervisor.name, '') ILIKE " ++ ph) false

/-- Embedding of `buildSupervisorSummaryFilters(query, { cityScope })`. -/
def buildSupervisorSummaryFilters (query : ReportQuery)
    (cityScope : Option CityScopeList) : String × List SqlParam :=
  let st := applyCityScopeFilter (supervisorSummaryBaseFilters query) cityScope
  (assembleWhereClause st.filters, st.params)

/-- A request with no filter parameters at all. -/
def emptyReportQuery : ReportQuery :=
  ⟨none, none, none, none, none, none, none, none, none, none, none, none,
   none, none, none, none, none, none, none, none, none, none, none⟩

/-- The `.replace(/"/g, double-quote double-quote)` body of `csvEscapeValue`:
every quote is doubled. -/
def csvQuoteEscape (s : List Char) : List Char :=
  s.flatMap fun c => if c = '"' then ['"', '"'] else [c]

/-- Embedding of `csvEscapeValue(value)` at the character level: null
renders as an empty quoted field, any other value is quoted with embedded
quotes doubled. -/
def csvEscapeChars (v : Option (List Char)) : List Char :=
  match v with
  | none => ['"', '"']
  | some s => '"' :: (csvQuoteEscape s ++ ['"'])

/-- JS `Array.prototype.join(sep)` for a one-character separator. -/
def joinSep (sep : Char) : List (List Char) → List Char
  | [] => []
  | [x] => x
  | x :: xs => x ++ sep :: joinSep sep xs

/-- One rendered CSV line: the escaped cells joined by commas. -/
def csvRecordChars (cells : List (Option (List Char))) : List Char :=
  joinSep ',' (cells.map csvEscapeChars)

/-- Embedding of `buildCsvDocument(rows, headers)` at the character level:
`none` models the thrown error on empty headers; with no data rows the
document is the header line plus a newline; otherwise the header line and
the data lines joined by newlines.  A row stands for the per-header cell
values `formatter(row[key])`/`row[key]`, one cell per header, and each data
cell passes through `rawValue ?? ""` before escaping. -/
def buildCsvDocumentChars (rows : List (List (Option (List Char))))
    (headers : List (List Char)) : Option (List Char) :=
  if headers = [] then none
  else
    let headerLine := csvRecordChars (headers.map some)
    if rows = [] then some (headerLine ++ ['\n'])
    else some (joinSep '\n'
      (headerLine :: rows.map fun row => csvRecordChars (row.map fun v => some (v.getD []))))

/-- String-level `csvEscapeValue`. -/
def csvEscapeValue (value : Option String) : String :=
  String.mk (csvEscapeChars (value.map String.data))

/-- String-level `buildCsvDocument`. -/
def buildCsvDocument (rows : List (List (Option String))) (headers : List String) :
    Option String :=
  (buildCsvDocumentChars (rows.map fun row => row.map fun v => v.map String.data)
    (headers.map String.data)).map String.mk

/-- RFC 4180 parser for the body of a quoted field (the opening quote
already consumed): a doubled quote is an escaped quote, a single quote ends
the field. -/
def parseQuotedBody : List Char → Option (List Char × List Char)
  | [] => none
  | c :: rest =>
      if c = '"' then
        match rest with
        | [] => some ([], [])
        | c2 :: rest2 =>
            if c2 = '"' then (parseQuotedBody rest2).map fun p => ('"' :: p.1, p.2)
            else some ([], rest)
      else (parseQuotedBody rest).map fun p => (c :: p.1, p.2)

/-- RFC 4180 parser for one quoted field. -/
def parseField (l : List Char) : Option (List Char × List Char) :=
  match l with
  | [] => none
  | c :: rest => if c = '"' then parseQuotedBody rest else none

/-- RFC 4180 parser for one record: comma-separated quoted fields.  The fuel
bounds the number of fields. -/
def parseRecordFuel : Nat → List Char → Option (List (List Char) × List Char)
  | 0, _ => none
  | fuel + 1, l =>
      match parseField l with
      | none => none
      | some (f, rest) =>
          match rest with
          | ',' :: r2 =>
              match parseRecordFuel fuel r2 with
              | none => none
              | some (fs, r3) => some (f :: fs, r3)
          | _ => some ([f], rest)

/-- RFC 4180 parser for a document: newline-separated records, with an
optional trailing line break.  The fuel bounds the number of records. -/
def parseCsvFuel : Nat → List Char → Option (List (List (List Char)))
  | 0, _ => none
  | fuel + 1, l =>
      match parseRecordFuel (l.length + 1) l with
      | none => none
      | some (fs, rest) =>
          match rest with
          | [] => some [fs]
          | '\n' :: r2 =>
              if r2 = [] then some [fs]
              else
                match parseCsvFuel fuel r2 with
                | none => none
                | some rs => some (fs :: rs)
          | _ => none

/-- RFC 4180 parse of a whole document (a field never needs more fuel than
one unit per character plus one). -/
def parseCsvRecords (l : List Char) : Option (List (List (List Char))) :=
  parseCsvFuel (l.length + 1) l

/-- String-level RFC 4180 parse. -/
def parseCsv (s : String) : Option (List (List String)) :=
  (parseCsvRecords s.data).map fun rs => rs.map fun r => r.map String.mk

end Attendease

namespace Attendease

/-- C4: with records satisfying the invariant that a set `punch_out_time`
implies a set `punch_in_time`, `validatePunchAttempt` rejects with 400
exactly the ineligible transitions — IN on an already-punched-in record,
any punch on a completed record, OUT with no punch-in (or no record) —
and returns no error exactly on the eligible transitions. -/
theorem validatePunchAttempt_transitions
    (a : Option AttendanceRecord) (pt : PunchType)
    (hinv : ∀ r, a = some r → r.punch_out_time.isSome → r.punch_in_time.isSome) :
    (pt = PunchType.IN → ∀ r, a = some r → r.punch_in_time.isSome →
        validatePunchAttempt a pt = some ⟨400, "Already punched in today"⟩)
  ∧ (∀ r, a = some r → r.punch_in_time.isSome → r.punch_out_time.isSome →
        ∃ m, validatePunchAttempt a pt = some ⟨400, m⟩
          ∧ (m = "Already punched in today" ∨ m = "Already punched out today"))
  ∧ (pt = PunchType.OUT → (a = none ∨ ∃ r, a = some r ∧ r.punch_in_time = none) →
        validatePunchAttempt a pt = some ⟨400, "Must punch in first"⟩)
  ∧ (validatePunchAttempt a pt = none ↔
        ((pt = PunchType.IN ∧ ∃ r, a = some r ∧ r.punch_in_time = none)
         ∨ (pt = PunchType.OUT ∧ ∃ r, a = some r ∧ r.punch_in_time.isSome
              ∧ r.punch_out_time = none))) := by
  refine ⟨?_, ?_, ?_, ?_⟩
  · rintro hpt r rfl hin
    simp [validatePunchAttempt, hpt, hin]
  · rintro r rfl hin hout
    cases pt with
    | IN => exact ⟨"Already punched in today", by simp [validatePunchAttempt, hin], Or.inl rfl⟩
    | OUT => exact ⟨"Already punched out today", by simp [validatePunchAttempt, hout], Or.inr rfl⟩
  · rintro hpt (rfl | ⟨r, rfl, hin⟩)
    · simp [validatePunchAttempt, hpt]
    · have hout : r.punch_out_time = none := by
        by_contra hne
        have := hinv r rfl (Option.isSome_iff_ne_none.mpr hne)
        rw [hin] at this
        simp at this
      simp [validatePunchAttempt, hpt, hin, hout]
  · constructor
    · intro hnone
      cases a with
      | none =>
          cases pt <;> simp [validatePunchAttempt] at hnone
      | some r =>
          cases pt with
          | IN =>
              refine Or.inl ⟨rfl, r, rfl, ?_⟩
              by_contra hne
              have hin : r.punch_in_time.isSome := Option.isSome_iff_ne_none.mpr hne
              simp [validatePunchAttempt, hin] at hnone
          | OUT =>
              refine Or.inr ⟨rfl, r, rfl, ?_, ?_⟩
              · by_contra hne
                have hin : r.punch_in_time = none := by
                  cases h : r.punch_in_time with
                  | none => rfl
                  | some v => exact absurd (by simp [h]) hne
                have hout : r.punch_out_time = none := by
                  by_contra houtne
                  have := hinv r rfl (Option.isSome_iff_ne_none.mpr houtne)
                  rw [hin] at this
                  simp at this
                simp [validatePunchAttempt, hin, hout] at hnone
              · by_contra hne
                have hout : r.punch_out_time.isSome := Option.isSome_iff_ne_none.mpr hne
                simp [validatePunchAttempt, hout] at hnone
    · rintro (⟨rfl, r, rfl, hin⟩ | ⟨rfl, r, rfl, hin, hout⟩)
      · have hout : r.punch_out_time = none := by
          by_contra hne
          have := hinv r rfl (Option.isSome_iff_ne_none.mpr hne)
          rw [hin] at this
          simp at this
        simp [validatePunchAttempt, hin]
      · have hne := Option.isSome_iff_ne_none.mp hin
        simp [validatePunchAttempt, hin, hout, hne]

/-- Witness for C4 at a concrete input: an open record (punched in, not out)
passes validation for a punch-out. -/
theorem validatePunchAttempt_transitions_witness :
    validatePunchAttempt (some ⟨1, 7, 0, some 5, none⟩) PunchType.OUT = none := by
  have h := validatePunchAttempt_transitions
    (some ⟨1, 7, 0, some 5, none⟩) PunchType.OUT
    (by rintro r ⟨rfl⟩ h; simp)
  exact h.2.2.2.mpr (Or.inr ⟨rfl, _, rfl, by simp, rfl⟩)

theorem recordLater_irrefl (a : AttendanceRecord) : ¬ RecordLater a a := by
  unfold RecordLater; omega

theorem foldl_selectLatestStep_ne_none (rows : List AttendanceRecord) (b : AttendanceRecord) :
    rows.foldl selectLatestStep (some b) ≠ none := by
  induction rows generalizing b with
  | nil => simp
  | cons r rows ih =>
      simp only [List.foldl_cons, selectLatestStep]
      split_ifs <;> apply ih

theorem selectLatest_eq_none_iff (rows : List AttendanceRecord) :
    selectLatest rows = none ↔ rows = [] := by
  cases rows with
  | nil => simp [selectLatest]
  | cons r rows =>
      simp only [selectLatest, List.foldl_cons, selectLatestStep]
      constructor
      · intro h
        exact absurd h (foldl_selectLatestStep_ne_none rows r)
      · intro h
        exact absurd h (by simp)

theorem foldl_selectLatestStep_mem (rows : List AttendanceRecord) :
    ∀ acc m, rows.foldl selectLatestStep acc = some m → acc = some m ∨ m ∈ rows := by
  induction rows with
  | nil =>
      intro acc m h
      simp only [List.foldl_nil] at h
      exact Or.inl h
  | cons r rows ih =>
      intro acc m h
      simp only [List.foldl_cons] at h
      rcases ih _ m h with h' | h'
      · cases acc with
        | none =>
            simp only [selectLatestStep] at h'
            obtain rfl := Option.some_inj.mp h'
            exact Or.inr (List.mem_cons_self _ _)
        | some best =>
            simp only [selectLatestStep] at h'
            split_ifs at h'
            · obtain rfl := Option.some_inj.mp h'
              exact Or.inr (List.mem_cons_self _ _)
            · exact Or.inl h'
      · exact Or.inr (List.mem_cons_of_mem _ h')

theorem foldl_selectLatestStep_max (rows : List AttendanceRecord) :
    ∀ acc m, rows.foldl selectLatestStep acc = some m →
      (∀ b, acc = some b → ¬ RecordLater m b) ∧ (∀ r ∈ rows, ¬ RecordLater m r) := by
  induction rows with
  | nil =>
      intro acc m h
      simp only [List.foldl_nil] at h
      refine ⟨?_, by simp⟩
      rintro b rfl
      obtain rfl := Option.some_inj.mp h
      exact recordLater_irrefl _
  | cons r rows ih =>
      intro acc m h
      simp only [List.foldl_cons] at h
      obtain ⟨hacc', hrest⟩ := ih _ m h
      constructor
      · rintro b rfl
        by_cases hb : RecordLater b r
        · have hmr : ¬ RecordLater m r := hacc' r (by simp [selectLatestStep, hb])
          simp only [RecordLater] at hb hmr ⊢
          omega
        · exact hacc' b (by simp [selectLatestStep, hb])
      · intro r' hr'
        rcases List.mem_cons.mp hr' with rfl | hmem
        · cases acc with
          | none => exact hacc' r' (by simp [selectLatestStep])
          | some best =>
              by_cases hb : RecordLater best r'
              · exact hacc' r' (by simp [selectLatestStep, hb])
              · have hmbest : ¬ RecordLater m best := hacc' best (by simp [selectLatestStep, hb])
                simp only [RecordLater] at hb hmbest ⊢
                omega
        · exact hrest r' hmem

theorem selectLatest_spec (rows : List AttendanceRecord) (m : AttendanceRecord)
    (h : selectLatest rows = some m) : m ∈ rows ∧ ∀ r ∈ rows, ¬ RecordLater m r := by
  have hm := foldl_selectLatestStep_mem rows none m h
  have hx := (foldl_selectLatestStep_max rows none m h).2
  simp only [reduceCtorEq, false_or] at hm
  exact ⟨hm, hx⟩

theorem rowForDate_spec (db : List AttendanceRecord) (emp : Nat) (target : Int)
    (a : AttendanceRecord) (h : rowForDate db emp target = some a) :
    a ∈ db ∧ a.emp_id = emp ∧ a.date = target := by
  obtain ⟨hmem, -⟩ := selectLatest_spec _ _ h
  have := List.mem_filter.mp hmem
  refine ⟨this.1, ?_⟩
  have h2 := this.2
  simp only [decide_eq_true_eq] at h2
  exact h2

/-- C2: on a punch-out, the resolver returns the target-date row as-is when
it is already punched in; when that row is missing or not punched in, it
returns the most recent open record (punched in, not out, dated within one
day before the target), and a punch-out against it passes validation; and
when no such open record exists, the punch-out attempt is rejected with
400 "Must punch in first" — whether or not record creation is allowed. -/
theorem getOrCreateAttendanceRecord_punchOut_resolution
    (db : List AttendanceRecord) (emp : Nat) (target : Int)
    (createIfMissing : Bool) (freshId : Nat)
    (hemp : emp ≠ 0)
    (hinv : ∀ r ∈ db, r.punch_out_time.isSome → r.punch_in_time.isSome) :
    (∀ a, rowForDate db emp target = some a → a.punch_in_time.isSome →
        getOrCreateAttendanceRecord db emp target (some PunchType.OUT) createIfMissing freshId
          = some a)
  ∧ ((∀ a, rowForDate db emp target = some a → a.punch_in_time = none) →
      (db.filter fun r => isOpenCarry emp target r) ≠ [] →
      ∃ c, getOrCreateAttendanceRecord db emp target (some PunchType.OUT) createIfMissing freshId
            = some c
        ∧ c ∈ db ∧ isOpenCarry emp target c
        ∧ (∀ r ∈ db, isOpenCarry emp target r → ¬ RecordLater c r)
        ∧ validatePunchAttempt (some c) PunchType.OUT = none)
  ∧ ((∀ a, rowForDate db emp target = some a → a.punch_in_time = none) →
      (db.filter fun r => isOpenCarry emp target r) = [] →
      validatePunchAttempt
        (getOrCreateAttendanceRecord db emp target (some PunchType.OUT) createIfMissing freshId)
        PunchType.OUT = some ⟨400, "Must punch in first"⟩) := by
  refine ⟨?_, ?_, ?_⟩
  · intro a ha hin
    obtain ⟨v, hv⟩ := Option.isSome_iff_exists.mp hin
    simp [getOrCreateAttendanceRecord, ha, hv]
  · intro hmiss hne
    cases hsel : selectLatest (db.filter fun r => isOpenCarry emp target r) with
    | none => exact absurd ((selectLatest_eq_none_iff _).mp hsel) hne
    | some c =>
        obtain ⟨hcmem, hcmax⟩ := selectLatest_spec _ _ hsel
        have hcdb : c ∈ db := (List.mem_filter.mp hcmem).1
        have hcopen : isOpenCarry emp target c := by
          have h2 := (List.mem_filter.mp hcmem).2
          simpa using h2
        refine ⟨c, ?_, hcdb, hcopen, ?_, ?_⟩
        · cases ha : rowForDate db emp target with
          | none =>
              simp [getOrCreateAttendanceRecord, ha, fetchRecentOpenAttendance, hemp, hsel]
          | some a =>
              have hin := hmiss a ha
              simp [getOrCreateAttendanceRecord, ha, hin, fetchRecentOpenAttendance, hemp, hsel]
        · intro r hr hropen
          exact hcmax r (List.mem_filter.mpr ⟨hr, by simpa using hropen⟩)
        · obtain ⟨-, -, -, hin, hout⟩ := hcopen
          obtain ⟨v, hv⟩ := Option.isSome_iff_exists.mp hin
          simp [validatePunchAttempt, hv, hout]
  · intro hmiss hempty
    have hsel : selectLatest (db.filter fun r => isOpenCarry emp target r) = none := by
      rw [hempty]; rfl
    cases ha : rowForDate db emp target with
    | some a =>
        have hin := hmiss a ha
        have hadb := (rowForDate_spec db emp target a ha).1
        have hout : a.punch_out_time = none := by
          by_contra hne2
          have := hinv a hadb (Option.isSome_iff_ne_none.mpr hne2)
          rw [hin] at this
          simp at this
        have hres :
            getOrCreateAttendanceRecord db emp target (some PunchType.OUT) createIfMissing freshId
              = some a := by
          simp [getOrCreateAttendanceRecord, ha, hin, fetchRecentOpenAttendance, hemp, hsel]
        rw [hres]
        simp [validatePunchAttempt, hin, hout]
    | none =>
        cases createIfMissing with
        | false =>
            have hres :
                getOrCreateAttendanceRecord db emp target (some PunchType.OUT) false freshId
                  = none := by
              simp [getOrCreateAttendanceRecord, ha, fetchRecentOpenAttendance, hemp, hsel]
            rw [hres]
            simp [validatePunchAttempt]
        | true =>
            have hres :
                getOrCreateAttendanceRecord db emp target (some PunchType.OUT) true freshId
                  = some ⟨freshId, emp, target, none, none⟩ := by
              simp [getOrCreateAttendanceRecord, ha, fetchRecentOpenAttendance, hemp, hsel]
            rw [hres]
            simp [validatePunchAttempt]

/-- Witness for C2: an employee punched in the previous day and never out is
carried forward when punching out the next day. -/
theorem getOrCreateAttendanceRecord_punchOut_resolution_witness :
    ∃ c, getOrCreateAttendanceRecord [⟨1, 7, 9, some 5, none⟩] 7 10
          (some PunchType.OUT) false 99 = some c
      ∧ c ∈ [(⟨1, 7, 9, some 5, none⟩ : AttendanceRecord)] ∧ isOpenCarry 7 10 c
      ∧ (∀ r ∈ [(⟨1, 7, 9, some 5, none⟩ : AttendanceRecord)],
            isOpenCarry 7 10 r → ¬ RecordLater c r)
      ∧ validatePunchAttempt (some c) PunchType.OUT = none :=
  (getOrCreateAttendanceRecord_punchOut_resolution [⟨1, 7, 9, some 5, none⟩] 7 10 false 99
      (by decide) (by intro r hr h; fin_cases hr; simp at h)).2.1
    (by
      intro a ha
      rw [show rowForDate [(⟨1, 7, 9, some 5, none⟩ : AttendanceRecord)] 7 10 = none from rfl]
        at ha
      exact absurd ha (by simp))
    (by decide)

theorem foldl_cityMapStep_at (rows : List PermissionRow) :
    ∀ (m : String → Option ScopeEntry) (k : String),
      (rows.foldl cityMapStep m) k =
        ((rows.filter fun r => permKey r = k).map fun r => r.city_id).foldl
          (fun acc cid => some (entryStep acc cid)) (m k) := by
  induction rows with
  | nil => intro m k; rfl
  | cons r rows ih =>
      intro m k
      simp only [List.foldl_cons]
      rw [ih]
      by_cases hk : permKey r = k
      · subst hk
        simp [List.filter_cons, cityMapStep]
      · simp [List.filter_cons, hk, cityMapStep, Ne.symm hk]

theorem entryFold_some (cids : List (Option Int)) :
    ∀ (e : ScopeEntry), (e.all = true → e.ids = ∅) →
      cids.foldl (fun acc cid => some (entryStep acc cid)) (some e) =
        some ⟨e.all || cids.any (fun c => c.isNone),
              if e.all || cids.any (fun c => c.isNone) then ∅
              else e.ids ∪ (cids.filterMap id).toFinset⟩ := by
  induction cids with
  | nil =>
      intro e he
      cases e with
      | mk a ids =>
          cases a with
          | true => simp_all
          | false => simp
  | cons c cs ih =>
      intro e he
      simp only [List.foldl_cons]
      cases c with
      | none =>
          rw [show entryStep (some e) none = ⟨true, ∅⟩ from rfl]
          rw [ih ⟨true, ∅⟩ (by intro; rfl)]
          simp
      | some v =>
          by_cases ha : e.all
          · rw [show entryStep (some e) (some v) = e from by simp [entryStep, ha]]
            rw [ih e he]
            simp [ha]
          · have ha' : e.all = false := by simp_all
            rw [show entryStep (some e) (some v) = ⟨e.all, insert v e.ids⟩ from by
              simp [entryStep, ha]]
            rw [ih ⟨e.all, insert v e.ids⟩ (by intro h; rw [ha'] at h; exact absurd h (by simp))]
            simp only [ha', Bool.false_or, List.any_cons, Option.isNone_some,
              List.filterMap_cons, id]
            by_cases hany : cs.any (fun c => c.isNone) <;>
              simp [hany, Finset.insert_union, Finset.insert_eq, List.toFinset_cons,
                Finset.union_left_comm]

theorem entryFold_full (L : List (Option Int)) (hL : L ≠ []) :
    L.foldl (fun acc cid => some (entryStep acc cid)) none =
      some ⟨L.any (fun c => c.isNone),
            if L.any (fun c => c.isNone) then ∅ else (L.filterMap id).toFinset⟩ := by
  cases L with
  | nil => exact absurd rfl hL
  | cons c cs =>
      simp only [List.foldl_cons]
      cases c with
      | none =>
          rw [show entryStep none none = ⟨true, ∅⟩ from rfl]
          rw [entryFold_some cs ⟨true, ∅⟩ (by intro; rfl)]
          simp
      | some v =>
          rw [show entryStep none (some v) = ⟨false, {v}⟩ from rfl]
          rw [entryFold_some cs ⟨false, {v}⟩ (by intro h; exact absurd h (by simp))]
          simp only [Bool.false_or, List.any_cons, Option.isNone_some,
            List.filterMap_cons, id]
          by_cases hany : cs.any (fun c => c.isNone) <;>
            simp [hany, Finset.insert_union, Finset.insert_eq, List.toFinset_cons]

/-- C5: for any list of permission rows and any `(module,action)` key, the
`cityMap` entry at that key is absent iff no row contributes to it; a present
entry has `all` set iff some contributing row has a null city, and otherwise
carries exactly the set of city ids of the contributing rows; and the entry
is independent of the order in which the rows are processed. -/
theorem fetchUserPermissions_cityMap_spec (rows : List PermissionRow) (k : String) :
    (fetchUserPermissionsCityMap rows k = none ↔ ∀ r ∈ rows, permKey r ≠ k)
  ∧ (∀ e, fetchUserPermissionsCityMap rows k = some e →
        ((e.all = true ↔ ∃ r ∈ rows, permKey r = k ∧ r.city_id = none)
      ∧ (e.all = false →
            e.ids = ((rows.filter fun r => permKey r = k).filterMap
              fun r => r.city_id).toFinset)))
  ∧ (∀ rows₂ : List PermissionRow, rows.Perm rows₂ →
        fetchUserPermissionsCityMap rows k = fetchUserPermissionsCityMap rows₂ k) := by
  have hchar : ∀ rs : List PermissionRow,
      fetchUserPermissionsCityMap rs k =
        ((rs.filter fun r => permKey r = k).map fun r => r.city_id).foldl
          (fun acc cid => some (entryStep acc cid)) none := by
    intro rs
    exact foldl_cityMapStep_at rs (fun _ => none) k
  refine ⟨?_, ?_, ?_⟩
  · constructor
    · intro hnone
      rw [hchar] at hnone
      cases hfil : (rows.filter fun r => permKey r = k) with
      | nil =>
          intro r hr
          have := List.filter_eq_nil_iff.mp hfil r hr
          simpa using this
      | cons c cs =>
          rw [hfil] at hnone
          rw [entryFold_full _ (by simp)] at hnone
          exact absurd hnone (by simp)
    · intro hnone
      rw [hchar]
      have hfil : (rows.filter fun r => permKey r = k) = [] := by
        simp only [List.filter_eq_nil_iff, decide_eq_true_eq]
        exact hnone
      rw [hfil]
      rfl
  · intro e he
    rw [hchar] at he
    cases hfil : (rows.filter fun r => permKey r = k) with
    | nil => rw [hfil] at he; exact absurd he (by simp)
    | cons c cs =>
        rw [hfil] at he
        rw [entryFold_full _ (by simp)] at he
        obtain rfl := Option.some_inj.mp he
        constructor
        · simp only [List.any_eq_true, List.mem_map]
          constructor
          · rintro ⟨cid, ⟨r, hr, rfl⟩, hnone⟩
            rw [← hfil] at hr
            have := List.mem_filter.mp hr
            exact ⟨r, this.1, by simpa using this.2, by simpa using hnone⟩
          · rintro ⟨r, hr, hk, hcid⟩
            refine ⟨r.city_id, ⟨r, ?_, rfl⟩, by simp [hcid]⟩
            rw [← hfil]
            exact List.mem_filter.mpr ⟨hr, by simpa⟩
        · intro hall
          simp only at hall
          rw [hall]
          simp only [Bool.false_eq_true, if_false]
          rw [← hfil, List.filterMap_map]
          rfl
  · intro rows₂ hp
    rw [hchar rows, hchar rows₂]
    have hpf := hp.filter (fun r => decide (permKey r = k))
    have hpL := hpf.map (fun r => r.city_id)
    cases hL1 : ((rows.filter fun r => permKey r = k).map fun r => r.city_id) with
    | nil =>
        have : ((rows₂.filter fun r => permKey r = k).map fun r => r.city_id) = [] := by
          rw [hL1] at hpL
          exact hpL.symm.eq_nil
        rw [this]
    | cons c cs =>
        have hne1 : ((rows.filter fun r => permKey r = k).map fun r => r.city_id) ≠ [] := by
          rw [hL1]; simp
        have hne2 : ((rows₂.filter fun r => permKey r = k).map fun r => r.city_id) ≠ [] := by
          intro hnil
          rw [hnil] at hpL
          exact hne1 hpL.eq_nil
        rw [← hL1]
        rw [entryFold_full _ hne1, entryFold_full _ hne2]
        have hany : (((rows.filter fun r => permKey r = k).map fun r => r.city_id).any
            fun c => c.isNone) =
            (((rows₂.filter fun r => permKey r = k).map fun r => r.city_id).any
            fun c => c.isNone) := by
          by_cases h1 : (((rows.filter fun r => permKey r = k).map fun r => r.city_id).any
              fun c => c.isNone) = true
          · rw [h1]
            symm
            rw [List.any_eq_true] at h1 ⊢
            obtain ⟨x, hx, hxn⟩ := h1
            exact ⟨x, hpL.mem_iff.mp hx, hxn⟩
          · have h1' := Bool.not_eq_true _ |>.mp h1
            rw [h1']
            symm
            rw [Bool.eq_false_iff]
            intro h2
            apply h1
            rw [List.any_eq_true] at h2 ⊢
            obtain ⟨x, hx, hxn⟩ := h2
            exact ⟨x, hpL.mem_iff.mpr hx, hxn⟩
        rw [hany]
        have hfm : ((((rows.filter fun r => permKey r = k).map fun r => r.city_id).filterMap
              id).toFinset : Finset Int) =
            (((rows₂.filter fun r => permKey r = k).map fun r => r.city_id).filterMap
              id).toFinset := by
          ext x
          simp only [List.mem_toFinset]
          exact (hpL.filterMap id).mem_iff
        rw [hfm]

/-- Witness for C5: a role-derived null-city row forces `all` for the
`city:view` key even in the presence of a city-qualified row. -/
theorem fetchUserPermissions_cityMap_spec_witness :
    ((⟨true, ∅⟩ : ScopeEntry).all = true ↔
      ∃ r ∈ [(⟨"city", "view", some 3⟩ : PermissionRow), ⟨"City", "View", none⟩],
        permKey r = "city:view" ∧ r.city_id = none) :=
  ((fetchUserPermissions_cityMap_spec
      [⟨"city", "view", some 3⟩, ⟨"City", "View", none⟩] "city:view").2.1
    ⟨true, ∅⟩ (by decide)).1

/-- C1 counterexample: a non-admin user with no `city:view` permission rows
and an explicit `UserCityAccess` grant for city 2.  The claim demands a
non-all scope whose ids consist of city 2; the code attaches `all = true`
because `normalizeScope` treats a missing `city:view` entry as unrestricted,
and it never consults `UserCityAccess` at all. -/
theorem buildCityScopeForUser_claim_counterexample :
    buildCityScopeForUser ⟨some 5, "user"⟩ [] ≠ cityScopeClaimed ⟨some 5, "user"⟩ [] {2} := by
  decide

/-- C1 (amended): for a user with a truthy `user_id`, an admin role
short-circuits to `all`; otherwise the attached city scope is `all` iff the
user's permission rows contain no `city:view` entry at all or some
`city:view` row carries a null city, and otherwise its ids are exactly the
city ids of the `city:view`-qualified rows — `UserCityAccess` grants do not
contribute. -/
theorem buildCityScopeForUser_spec (user : AuthUser) (rows : List PermissionRow)
    (hid : user.user_id.getD 0 ≠ 0) :
    (jsToLower user.role = "admin" → buildCityScopeForUser user rows = ⟨true, ∅⟩)
  ∧ (jsToLower user.role ≠ "admin" →
      (((buildCityScopeForUser user rows).all = true ↔
          ((∀ r ∈ rows, permKey r ≠ CITY_PERMISSION_KEY)
            ∨ ∃ r ∈ rows, permKey r = CITY_PERMISSION_KEY ∧ r.city_id = none))
        ∧ ((buildCityScopeForUser user rows).all = false →
            (buildCityScopeForUser user rows).ids =
              ((rows.filter fun r => permKey r = CITY_PERMISSION_KEY).filterMap
                fun r => r.city_id).toFinset))) := by
  constructor
  · intro hadmin
    rw [buildCityScopeForUser, if_neg hid, if_pos hadmin]
  · intro hrole
    have hres : buildCityScopeForUser user rows =
        normalizeScope (fetchUserPermissionsCityMap rows CITY_PERMISSION_KEY) := by
      rw [buildCityScopeForUser, if_neg hid, if_neg hrole]
    obtain ⟨h1, h2, -⟩ := fetchUserPermissions_cityMap_spec rows CITY_PERMISSION_KEY
    cases hM : fetchUserPermissionsCityMap rows CITY_PERMISSION_KEY with
    | none =>
        rw [hM] at hres
        refine ⟨?_, ?_⟩
        · rw [hres]
          constructor
          · intro _
            exact Or.inl (h1.mp hM)
          · intro _
            rfl
        · rw [hres]
          simp [normalizeScope]
    | some e =>
        obtain ⟨he_all, he_ids⟩ := h2 e hM
        have hsome : ∃ r ∈ rows, permKey r = CITY_PERMISSION_KEY := by
          by_contra hno
          push_neg at hno
          rw [h1.mpr hno] at hM
          exact absurd hM (by simp)
        rw [hM] at hres
        cases hall : e.all with
        | true =>
            have : normalizeScope (some e) = ⟨true, ∅⟩ := by
              simp [normalizeScope, hall]
            rw [this] at hres
            refine ⟨?_, ?_⟩
            · rw [hres]
              constructor
              · intro _
                exact Or.inr (he_all.mp hall)
              · intro _
                rfl
            · rw [hres]
              simp
        | false =>
            have : normalizeScope (some e) = ⟨false, e.ids⟩ := by
              simp [normalizeScope, hall]
            rw [this] at hres
            refine ⟨?_, ?_⟩
            · rw [hres]
              simp only [Bool.false_eq_true, false_iff]
              rintro (hnone | hex)
              · obtain ⟨r, hr, hk⟩ := hsome
                exact hnone r hr hk
              · have := he_all.mpr hex
                rw [hall] at this
                exact absurd this (by simp)
            · intro _
              rw [hres]
              exact he_ids hall

/-- Witness for the amended C1 at a concrete non-admin user holding one
city-qualified `city:view` permission row. -/
theorem buildCityScopeForUser_spec_witness :
    ((buildCityScopeForUser ⟨some 5, "worker"⟩ [⟨"city", "view", some 3⟩]).all = true ↔
        ((∀ r ∈ [(⟨"city", "view", some 3⟩ : PermissionRow)],
            permKey r ≠ CITY_PERMISSION_KEY)
          ∨ ∃ r ∈ [(⟨"city", "view", some 3⟩ : PermissionRow)],
              permKey r = CITY_PERMISSION_KEY ∧ r.city_id = none)) :=
  ((buildCityScopeForUser_spec ⟨some 5, "worker"⟩ [⟨"city", "view", some 3⟩]
      (by decide)).2 (by decide)).1

/-- The Gregorian successor undoes the rollover decrement on valid dates. -/
theorem nextCivilDay_prevCivilDay (d : CivilDate) (h : IsValidDate d) :
    nextCivilDay (prevCivilDay d) = d := by
  obtain ⟨y, m, day⟩ := d
  obtain ⟨hm1, hm12, hd1, hdlast⟩ := h
  simp only [lastDayOfMonth] at hdlast ⊢
  simp only [prevCivilDay, nextCivilDay]
  split_ifs <;> simp_all [CivilDate.mk.injEq, lastDayOfMonth] <;> omega

/-- The rollover decrement changes the date. -/
theorem prevCivilDay_ne (d : CivilDate) (h : IsValidDate d) :
    prevCivilDay d ≠ d := by
  obtain ⟨y, m, day⟩ := d
  obtain ⟨hm1, hm12, hd1, hdlast⟩ := h
  simp only [prevCivilDay]
  split_ifs <;> simp only [ne_eq, CivilDate.mk.injEq] <;> omega

/-- C3: for any local wall-clock instant and configured rollover hour in
0..23, `formatDate` yields exactly the local calendar date when the local
hour is at or after the rollover hour, and exactly the previous calendar day
(the unique date whose successor is the local date) when the local hour is
strictly below it.  In particular an event at the rollover hour belongs to
the new day and one a second earlier to the previous day. -/
theorem formatDate_rollover (p : LocalParts) (rh : Int)
    (hv : IsValidDate p.date) (h0 : 0 ≤ rh) (h23 : rh ≤ 23) :
    (p.hour < rh → nextCivilDay (formatDate p rh) = p.date ∧ formatDate p rh ≠ p.date)
  ∧ (rh ≤ p.hour → formatDate p rh = p.date) := by
  constructor
  · intro hlt
    rw [formatDate, if_pos ⟨h0, h23, hlt⟩]
    exact ⟨nextCivilDay_prevCivilDay _ hv, prevCivilDay_ne _ hv⟩
  · intro hge
    rw [formatDate, if_neg ?_]
    rintro ⟨-, -, hc⟩
    omega

/-- Witness for C3 at 2023-06-15 03:00 with rollover hour 4: the punch is
attributed to the previous day. -/
theorem formatDate_rollover_witness :
    ((3:Int) < 4 →
        nextCivilDay (formatDate ⟨2023, 6, 15, 3⟩ 4) = LocalParts.date ⟨2023, 6, 15, 3⟩
      ∧ formatDate ⟨2023, 6, 15, 3⟩ 4 ≠ LocalParts.date ⟨2023, 6, 15, 3⟩)
  ∧ ((4:Int) ≤ 3 → formatDate ⟨2023, 6, 15, 3⟩ 4 = LocalParts.date ⟨2023, 6, 15, 3⟩) :=
  formatDate_rollover ⟨2023, 6, 15, 3⟩ 4 (by decide) (by decide) (by decide)

/-- C9: only a raw punch-type value whose trimmed, upper-cased form is exactly
`"OUT"` yields a punch-out; every other value — missing, empty, or
unrecognised — is treated as punch IN. -/
theorem resolvePunchType_defaults_to_in (raw : Option String) :
    (resolvePunchType raw = PunchType.OUT ↔ jsToUpper (jsTrim (raw.getD "")) = "OUT")
  ∧ resolvePunchType none = PunchType.IN
  ∧ resolvePunchType (some "") = PunchType.IN
  ∧ resolvePunchType (some " out ") = PunchType.OUT
  ∧ resolvePunchType (some "OUTT") = PunchType.IN := by
  refine ⟨?_, by decide, by decide, by decide, by decide⟩
  unfold resolvePunchType normalizePunchTypeInput
  by_cases h : jsToUpper (jsTrim (raw.getD "")) = "OUT" <;> simp [h]

/-- C10: whenever `computeCropRegion` returns a rectangle, it lies fully
inside the image: non-negative offsets, dimensions of at least one pixel,
and right/bottom edges within the image bounds. -/
theorem computeCropRegion_in_bounds (bb : BoundingBox) (W H : Int) (rho : ℚ)
    (r : CropRegion) (h : computeCropRegion bb W H rho = some r) :
    0 ≤ r.left ∧ 0 ≤ r.top ∧ 1 ≤ r.width ∧ 1 ≤ r.height
      ∧ r.left + r.width ≤ W ∧ r.top + r.height ≤ H := by
  cases r with
  | mk l t w hgt =>
      simp only [computeCropRegion] at h
      split_ifs at h with h1 h2
      simp only [Option.some_inj, CropRegion.mk.injEq] at h
      obtain ⟨hl, ht, hw, hh⟩ := h
      simp only at *
      refine ⟨?_, ?_, ?_, ?_, ?_, ?_⟩ <;> omega

/-- Witness for C10 at a concrete centred box in a 100×100 image. -/
theorem computeCropRegion_in_bounds_witness :
    0 ≤ (12 : Int) ∧ 0 ≤ (12 : Int) ∧ 1 ≤ (76 : Int) ∧ 1 ≤ (76 : Int)
      ∧ (12 : Int) + 76 ≤ 100 ∧ (12 : Int) + 76 ≤ 100 :=
  computeCropRegion_in_bounds ⟨1/4, 1/4, 1/2, 1/2⟩ 100 100 (1/4) ⟨12, 12, 76, 76⟩
    (by norm_num [computeCropRegion, jsRound])

theorem groupStep_snd_idx (p : Finset Nat) (i j : Nat) (ev : FaceEvent) :
    (groupStep p i ev).2 = (groupStep p j ev).2 := by
  cases ev <;> try rfl
  case resolved e v =>
    simp only [groupStep]
    split_ifs <;> rfl

theorem runGroupFaces_length (evs : List FaceEvent) :
    ∀ p idx, (runGroupFaces p idx evs).length = evs.length := by
  induction evs with
  | nil => intro p idx; rfl
  | cons ev evs ih =>
      intro p idx
      simp [runGroupFaces, ih]

theorem runGroupFaces_duplicate (evs : List FaceEvent) :
    ∀ (p : Finset Nat) (idx i : Nat) (hi : i < evs.length) (emp : Nat) (vfail : Bool),
      evs.get ⟨i, hi⟩ = FaceEvent.resolved emp vfail →
      emp ∈ (evs.take i).foldl processedStep p →
      ∃ hr : i < (runGroupFaces p idx evs).length,
        ((runGroupFaces p idx evs).get ⟨i, hr⟩).status = FaceStatus.duplicate
        ∧ ((runGroupFaces p idx evs).get ⟨i, hr⟩).employeeId = some emp := by
  induction evs with
  | nil =>
      intro p idx i hi
      exact absurd hi (by simp)
  | cons ev evs ih =>
      intro p idx i hi emp vfail hev hmem
      cases i with
      | zero =>
          simp only [List.get] at hev
          subst hev
          simp only [List.take_zero, List.foldl_nil] at hmem
          refine ⟨by simp [runGroupFaces, runGroupFaces_length], ?_, ?_⟩ <;>
            simp [runGroupFaces, groupStep, hmem]
      | succ i =>
          have hi2 : i < evs.length := by simpa using hi
          have hev2 : evs.get ⟨i, hi2⟩ = FaceEvent.resolved emp vfail := by
            simpa using hev
          have hmem2 : emp ∈ (evs.take i).foldl processedStep (groupStep p idx ev).2 := by
            rw [groupStep_snd_idx p idx 0 ev]
            simpa [List.take_succ_cons, List.foldl_cons, processedStep] using hmem
          obtain ⟨hr, hstat, hemp⟩ := ih (groupStep p idx ev).2 (idx + 1) i hi2 emp vfail hev2 hmem2
          refine ⟨?_, ?_, ?_⟩
          · simp only [runGroupFaces, List.length_cons]
            omega
          · simpa [runGroupFaces] using hstat
          · simpa [runGroupFaces] using hemp

theorem runGroupFaces_cons (p : Finset Nat) (idx : Nat) (ev : FaceEvent)
    (evs : List FaceEvent) :
    runGroupFaces p idx (ev :: evs) =
      (groupStep p idx ev).1 :: runGroupFaces (groupStep p idx ev).2 (idx + 1) evs := rfl

theorem runGroupFaces_punched_once (evs : List FaceEvent) :
    ∀ (p : Finset Nat) (idx emp : Nat),
      (emp ∈ p → ((runGroupFaces p idx evs).filter fun r =>
          r.status = FaceStatus.punched ∧ r.employeeId = some emp).length = 0)
    ∧ ((runGroupFaces p idx evs).filter fun r =>
          r.status = FaceStatus.punched ∧ r.employeeId = some emp).length ≤ 1 := by
  induction evs with
  | nil =>
      intro p idx emp
      exact ⟨fun _ => rfl, by simp [runGroupFaces]⟩
  | cons ev evs ih =>
      intro p idx emp
      cases ev with
      | cropFail =>
          rw [runGroupFaces_cons,
            show groupStep p idx FaceEvent.cropFail =
              (⟨idx, FaceStatus.skipped, none⟩, p) from rfl,
            List.filter_cons_of_neg (by simp)]
          exact ih p (idx + 1) emp
      | cropError =>
          rw [runGroupFaces_cons,
            show groupStep p idx FaceEvent.cropError =
              (⟨idx, FaceStatus.error, none⟩, p) from rfl,
            List.filter_cons_of_neg (by simp)]
          exact ih p (idx + 1) emp
      | unmatched =>
          rw [runGroupFaces_cons,
            show groupStep p idx FaceEvent.unmatched =
              (⟨idx, FaceStatus.unmatched, none⟩, p) from rfl,
            List.filter_cons_of_neg (by simp)]
          exact ih p (idx + 1) emp
      | searchError =>
          rw [runGroupFaces_cons,
            show groupStep p idx FaceEvent.searchError =
              (⟨idx, FaceStatus.error, none⟩, p) from rfl,
            List.filter_cons_of_neg (by simp)]
          exact ih p (idx + 1) emp
      | resolved e v =>
          by_cases he : e ∈ p
          · have hstep : groupStep p idx (FaceEvent.resolved e v) =
                (⟨idx, FaceStatus.duplicate, some e⟩, p) := by
              simp [groupStep, he]
            rw [runGroupFaces_cons, hstep, List.filter_cons_of_neg (by simp)]
            exact ih p (idx + 1) emp
          · cases v with
            | true =>
                have hstep : groupStep p idx (FaceEvent.resolved e true) =
                    (⟨idx, FaceStatus.skipped, some e⟩, insert e p) := by
                  simp [groupStep, he]
                rw [runGroupFaces_cons, hstep, List.filter_cons_of_neg (by simp)]
                refine ⟨fun hm => ?_, (ih (insert e p) (idx + 1) emp).2⟩
                exact (ih (insert e p) (idx + 1) emp).1 (Finset.mem_insert_of_mem hm)
            | false =>
                have hstep : groupStep p idx (FaceEvent.resolved e false) =
                    (⟨idx, FaceStatus.punched, some e⟩, insert e p) := by
                  simp [groupStep, he]
                by_cases hee : e = emp
                · subst hee
                  rw [runGroupFaces_cons, hstep, List.filter_cons_of_pos (by simp)]
                  constructor
                  · intro hm
                    exact absurd hm he
                  · have hz := (ih (insert e p) (idx + 1) e).1 (Finset.mem_insert_self e p)
                    simp only [List.length_cons, hz]
                    omega
                · rw [runGroupFaces_cons, hstep, List.filter_cons_of_neg (by simp [hee])]
                  refine ⟨fun hm => ?_, (ih (insert e p) (idx + 1) emp).2⟩
                  exact (ih (insert e p) (idx + 1) emp).1 (Finset.mem_insert_of_mem hm)

/-- C8: in group mode there is one result per detected face; a face resolving
to an employee already processed earlier in the frame gets status
`duplicate` (and at most one face per employee is ever `punched`, so no
second state transition happens); and the response's `success` flag is true
iff at least one face was punched. -/
theorem groupMode_duplicate_and_success (events : List FaceEvent) :
    ((groupModeResults events).length = events.length)
  ∧ (∀ (i : Nat) (hi : i < events.length) (emp : Nat) (vfail : Bool),
        events.get ⟨i, hi⟩ = FaceEvent.resolved emp vfail →
        emp ∈ (events.take i).foldl processedStep ∅ →
        ∃ hr : i < (groupModeResults events).length,
          ((groupModeResults events).get ⟨i, hr⟩).status = FaceStatus.duplicate
          ∧ ((groupModeResults events).get ⟨i, hr⟩).employeeId = some emp)
  ∧ (∀ emp : Nat, ((groupModeResults events).filter fun r =>
        r.status = FaceStatus.punched ∧ r.employeeId = some emp).length ≤ 1)
  ∧ ((groupModeResponse events).success = true ↔
        0 < punchedCount (groupModeResults events))
  ∧ (groupModeResponse events).punched_count = punchedCount (groupModeResults events)
  ∧ (groupModeResponse events).total_faces = events.length := by
  refine ⟨runGroupFaces_length events ∅ 1, ?_, ?_, ?_, rfl, rfl⟩
  · intro i hi emp vfail hev hmem
    exact runGroupFaces_duplicate events ∅ 1 i hi emp vfail hev hmem
  · intro emp
    exact (runGroupFaces_punched_once events ∅ 1 emp).2
  · simp [groupModeResponse, Nat.lt_iff_add_one_le]

/-- Witness for C8: two faces of the same employee in one frame — the second
one is reported as a duplicate. -/
theorem groupMode_duplicate_and_success_witness :
    ∃ hr : 1 < (groupModeResults
        [FaceEvent.resolved 100 false, FaceEvent.resolved 100 false]).length,
      ((groupModeResults
        [FaceEvent.resolved 100 false, FaceEvent.resolved 100 false]).get
          ⟨1, hr⟩).status = FaceStatus.duplicate
      ∧ ((groupModeResults
        [FaceEvent.resolved 100 false, FaceEvent.resolved 100 false]).get
          ⟨1, hr⟩).employeeId = some 100 :=
  (groupMode_duplicate_and_success
      [FaceEvent.resolved 100 false, FaceEvent.resolved 100 false]).2.1
    1 (by decide) 100 false (by decide) (by decide)

theorem applyCityScopeFilter_spec (st : FilterState) (cs : CityScopeList)
    (hall : cs.all = false) :
    (cs.ids = [] →
        applyCityScopeFilter st (some cs) = ⟨st.filters ++ ["1 = 0"], st.params⟩)
  ∧ (cs.ids ≠ [] →
        applyCityScopeFilter st (some cs) =
          ⟨st.filters ++ ["c.city_id = ANY($" ++ toString (st.params.length + 1) ++ ")"],
           st.params ++ [SqlParam.intList cs.ids]⟩) := by
  constructor
  · intro hids
    simp [applyCityScopeFilter, hall, hids]
  · intro hids
    simp only [applyCityScopeFilter, hall, Bool.false_eq_true, if_false, if_neg hids,
      List.length_append, List.length_singleton]
    rfl

/-- C6: in both report filter builders, a non-`all` city scope with a
non-empty id set appends the bound-parameter conjunct `c.city_id = ANY($N)`
as the final filter, with the id array pushed as parameter number `N`; an
empty id set instead appends the contradiction `1 = 0` and pushes no
parameter.  Either way the returned WHERE clause is the AND-join of the base
filters and that final conjunct. -/
theorem buildFilters_cityScope_clause (query : ReportQuery) (locationExpression : String)
    (cs : CityScopeList) (hall : cs.all = false) :
    (cs.ids ≠ [] →
        ((buildAttendanceFilters query locationExpression (some cs)).1 =
            "WHERE " ++ String.intercalate " AND "
              ((attendanceBaseFilters query locationExpression).filters ++
                ["c.city_id = ANY($" ++
                  toString ((attendanceBaseFilters query locationExpression).params.length + 1)
                  ++ ")"])
          ∧ (buildAttendanceFilters query locationExpression (some cs)).2 =
              (attendanceBaseFilters query locationExpression).params ++
                [SqlParam.intList cs.ids]
          ∧ (buildSupervisorSummaryFilters query (some cs)).1 =
              "WHERE " ++ String.intercalate " AND "
                ((supervisorSummaryBaseFilters query).filters ++
                  ["c.city_id = ANY($" ++
                    toString ((supervisorSummaryBaseFilters query).params.length + 1) ++ ")"])
          ∧ (buildSupervisorSummaryFilters query (some cs)).2 =
              (supervisorSummaryBaseFilters query).params ++ [SqlParam.intList cs.ids]))
  ∧ (cs.ids = [] →
        ((buildAttendanceFilters query locationExpression (some cs)).1 =
            "WHERE " ++ String.intercalate " AND "
              ((attendanceBaseFilters query locationExpression).filters ++ ["1 = 0"])
          ∧ (buildAttendanceFilters query locationExpression (some cs)).2 =
              (attendanceBaseFilters query locationExpression).params
          ∧ (buildSupervisorSummaryFilters query (some cs)).1 =
              "WHERE " ++ String.intercalate " AND "
                ((supervisorSummaryBaseFilters query).filters ++ ["1 = 0"])
          ∧ (buildSupervisorSummaryFilters query (some cs)).2 =
              (supervisorSummaryBaseFilters query).params)) := by
  constructor
  · intro hids
    have hA := (applyCityScopeFilter_spec (attendanceBaseFilters query locationExpression)
      cs hall).2 hids
    have hS := (applyCityScopeFilter_spec (supervisorSummaryBaseFilters query) cs hall).2 hids
    refine ⟨?_, ?_, ?_, ?_⟩
    · rw [buildAttendanceFilters]
      simp only [hA]
      rw [assembleWhereClause, if_neg (by simp)]
    · rw [buildAttendanceFilters]
      simp only [hA]
    · rw [buildSupervisorSummaryFilters]
      simp only [hS]
      rw [assembleWhereClause, if_neg (by simp)]
    · rw [buildSupervisorSummaryFilters]
      simp only [hS]
  · intro hids
    have hA := (applyCityScopeFilter_spec (attendanceBaseFilters query locationExpression)
      cs hall).1 hids
    have hS := (applyCityScopeFilter_spec (supervisorSummaryBaseFilters query) cs hall).1 hids
    refine ⟨?_, ?_, ?_, ?_⟩
    · rw [buildAttendanceFilters]
      simp only [hA]
      rw [assembleWhereClause, if_neg (by simp)]
    · rw [buildAttendanceFilters]
      simp only [hA]
    · rw [buildSupervisorSummaryFilters]
      simp only [hS]
      rw [assembleWhereClause, if_neg (by simp)]
    · rw [buildSupervisorSummaryFilters]
      simp only [hS]

/-- Witness for C6 at an empty query and the scope of cities 2 and 5. -/
theorem buildFilters_cityScope_clause_witness :
    (buildAttendanceFilters emptyReportQuery "loc" (some ⟨false, [2, 5]⟩)).1 =
        "WHERE " ++ String.intercalate " AND "
          ((attendanceBaseFilters emptyReportQuery "loc").filters ++
            ["c.city_id = ANY($" ++
              toString ((attendanceBaseFilters emptyReportQuery "loc").params.length + 1)
              ++ ")"])
      ∧ (buildAttendanceFilters emptyReportQuery "loc" (some ⟨false, [2, 5]⟩)).2 =
          (attendanceBaseFilters emptyReportQuery "loc").params ++
            [SqlParam.intList [2, 5]]
      ∧ (buildSupervisorSummaryFilters emptyReportQuery (some ⟨false, [2, 5]⟩)).1 =
          "WHERE " ++ String.intercalate " AND "
            ((supervisorSummaryBaseFilters emptyReportQuery).filters ++
              ["c.city_id = ANY($" ++
                toString ((supervisorSummaryBaseFilters emptyReportQuery).params.length + 1)
                ++ ")"])
      ∧ (buildSupervisorSummaryFilters emptyReportQuery (some ⟨false, [2, 5]⟩)).2 =
          (supervisorSummaryBaseFilters emptyReportQuery).params ++
            [SqlParam.intList [2, 5]] :=
  (buildFilters_cityScope_clause emptyReportQuery "loc" ⟨false, [2, 5]⟩ rfl).1 (by simp)

theorem parseQuotedBody_escape (s rest : List Char)
    (hrest : ∀ c cs, rest = c :: cs → c ≠ '"') :
    parseQuotedBody (csvQuoteEscape s ++ ('"' :: rest)) = some (s, rest) := by
  induction s with
  | nil =>
      rw [show csvQuoteEscape [] ++ ('"' :: rest) = '"' :: rest from rfl]
      cases rest with
      | nil => rfl
      | cons c2 rest2 =>
          have hc2 := hrest c2 rest2 rfl
          simp [parseQuotedBody, hc2]
  | cons a as ih =>
      by_cases ha : a = '"'
      · subst ha
        rw [show csvQuoteEscape ('"' :: as) ++ ('"' :: rest) =
              '"' :: '"' :: (csvQuoteEscape as ++ ('"' :: rest)) from by
            simp [csvQuoteEscape]]
        simp [parseQuotedBody, ih]
      · rw [show csvQuoteEscape (a :: as) ++ ('"' :: rest) =
              a :: (csvQuoteEscape as ++ ('"' :: rest)) from by
            simp [csvQuoteEscape, ha]]
        rw [show parseQuotedBody (a :: (csvQuoteEscape as ++ ('"' :: rest))) =
              (parseQuotedBody (csvQuoteEscape as ++ ('"' :: rest))).map
                (fun p => (a :: p.1, p.2)) from by
            rw [parseQuotedBody.eq_def]
            simp only [if_neg ha]]
        rw [ih]
        rfl

theorem parseField_escape (v : Option (List Char)) (rest : List Char)
    (hrest : ∀ c cs, rest = c :: cs → c ≠ '"') :
    parseField (csvEscapeChars v ++ rest) = some (v.getD [], rest) := by
  have hv : csvEscapeChars v = '"' :: (csvQuoteEscape (v.getD []) ++ ['"']) := by
    cases v <;> rfl
  rw [hv]
  rw [show ('"' :: (csvQuoteEscape (v.getD []) ++ ['"'])) ++ rest =
        '"' :: (csvQuoteEscape (v.getD []) ++ ('"' :: rest)) from by
      simp]
  rw [show parseField ('"' :: (csvQuoteEscape (v.getD []) ++ ('"' :: rest))) =
        parseQuotedBody (csvQuoteEscape (v.getD []) ++ ('"' :: rest)) from by
      simp [parseField]]
  exact parseQuotedBody_escape _ rest hrest

theorem csvEscapeChars_length_ge (v : Option (List Char)) :
    2 ≤ (csvEscapeChars v).length := by
  cases v with
  | none => rfl
  | some s => simp [csvEscapeChars]

theorem csvRecordChars_length_ge (cells : List (Option (List Char))) :
    cells.length ≤ (csvRecordChars cells).length := by
  induction cells with
  | nil => exact Nat.zero_le _
  | cons v vs ih =>
      cases vs with
      | nil =>
          have := csvEscapeChars_length_ge v
          simp only [csvRecordChars, List.map_cons, List.map_nil, joinSep,
            List.length_cons, List.length_nil]
          omega
      | cons v2 vs2 =>
          have h1 := csvEscapeChars_length_ge v
          have h2 : (v2 :: vs2).length ≤ (csvRecordChars (v2 :: vs2)).length := ih
          rw [show csvRecordChars (v :: v2 :: vs2) =
                csvEscapeChars v ++ (',' :: csvRecordChars (v2 :: vs2)) from by
              simp [csvRecordChars, joinSep]]
          simp only [List.length_append, List.length_cons] at *
          omega

theorem parseRecordFuel_render (cells : List (Option (List Char))) :
    ∀ (fuel : Nat) (rest : List Char), cells ≠ [] → cells.length ≤ fuel →
      (∀ c cs, rest = c :: cs → c ≠ '"' ∧ c ≠ ',') →
      parseRecordFuel fuel (csvRecordChars cells ++ rest) =
        some (cells.map fun v => v.getD [], rest) := by
  induction cells with
  | nil =>
      intro fuel rest hc
      exact absurd rfl hc
  | cons v vs ih =>
      intro fuel rest _ hfuel hrest
      obtain ⟨f, rfl⟩ : ∃ f, fuel = f + 1 :=
        ⟨fuel - 1, by simp only [List.length_cons] at hfuel; omega⟩
      cases vs with
      | nil =>
          rw [show csvRecordChars [v] = csvEscapeChars v from by
            simp [csvRecordChars, joinSep]]
          simp only [parseRecordFuel]
          rw [parseField_escape v rest (fun c cs h => (hrest c cs h).1)]
          cases rest with
          | nil => rfl
          | cons c cs =>
              have hcomma := (hrest c cs rfl).2
              simp only
              split
              · next r2 heq =>
                  rw [List.cons.injEq] at heq
                  exact absurd heq.1 hcomma
              · rfl
      | cons v2 vs2 =>
          rw [show csvRecordChars (v :: v2 :: vs2) ++ rest =
                csvEscapeChars v ++ (',' :: (csvRecordChars (v2 :: vs2) ++ rest)) from by
              simp [csvRecordChars, joinSep]]
          simp only [parseRecordFuel]
          rw [parseField_escape v (',' :: (csvRecordChars (v2 :: vs2) ++ rest))
            (by rintro c cs ⟨rfl, rfl⟩; decide)]
          simp only
          rw [ih f rest (by simp) (by simp only [List.length_cons] at hfuel ⊢; omega) hrest]
          rfl

theorem joinSep_length_ge (sep : Char) (docs : List (List Char))
    (h : ∀ d ∈ docs, d ≠ []) : docs.length ≤ (joinSep sep docs).length := by
  induction docs with
  | nil => simp [joinSep]
  | cons d ds ih =>
      cases ds with
      | nil =>
          have hd := h d (by simp)
          have : 1 ≤ d.length := by
            cases d with
            | nil => exact absurd rfl hd
            | cons x xs => simp
          simpa [joinSep] using this
      | cons d2 ds2 =>
          have hd := h d (by simp)
          have h1 : 1 ≤ d.length := by
            cases d with
            | nil => exact absurd rfl hd
            | cons x xs => simp
          have h2 := ih (fun x hx => h x (by simp [hx]))
          rw [show joinSep sep (d :: d2 :: ds2) = d ++ sep :: joinSep sep (d2 :: ds2)
            from rfl]
          simp only [List.length_cons, List.length_append] at *
          omega

theorem joinSep_ne_nil (sep : Char) (d : List Char) (ds : List (List Char))
    (hd : d ≠ []) : joinSep sep (d :: ds) ≠ [] := by
  cases ds with
  | nil => simpa [joinSep] using hd
  | cons d2 ds2 =>
      rw [show joinSep sep (d :: d2 :: ds2) = d ++ sep :: joinSep sep (d2 :: ds2) from rfl]
      simp

theorem parseCsvFuel_render (recs : List (List (Option (List Char)))) :
    ∀ fuel, recs ≠ [] → (∀ cells ∈ recs, cells ≠ []) → recs.length ≤ fuel →
      parseCsvFuel fuel (joinSep '\n' (recs.map csvRecordChars)) =
        some (recs.map fun cells => cells.map fun v => v.getD []) := by
  induction recs with
  | nil =>
      intro fuel hne
      exact absurd rfl hne
  | cons cells recs2 ih =>
      intro fuel _ hc hfuel
      obtain ⟨f, rfl⟩ : ∃ f, fuel = f + 1 :=
        ⟨fuel - 1, by simp only [List.length_cons] at hfuel; omega⟩
      cases recs2 with
      | nil =>
          rw [show joinSep '\n' ((cells :: []).map csvRecordChars) = csvRecordChars cells
            from by simp [joinSep]]
          simp only [parseCsvFuel]
          have hrr := parseRecordFuel_render cells ((csvRecordChars cells).length + 1) []
            (hc cells (by simp))
            (by have := csvRecordChars_length_ge cells; omega)
            (by rintro c cs ⟨⟩)
          rw [List.append_nil] at hrr
          rw [hrr]
          rfl
      | cons cells2 recs3 =>
          have hjoin : joinSep '\n' ((cells :: cells2 :: recs3).map csvRecordChars) =
              csvRecordChars cells ++
                ('\n' :: joinSep '\n' ((cells2 :: recs3).map csvRecordChars)) := by
            simp [joinSep]
          rw [hjoin]
          simp only [parseCsvFuel]
          have hrr := parseRecordFuel_render cells
            ((csvRecordChars cells ++
              ('\n' :: joinSep '\n' ((cells2 :: recs3).map csvRecordChars))).length + 1)
            ('\n' :: joinSep '\n' ((cells2 :: recs3).map csvRecordChars))
            (hc cells (by simp))
            (by
              have := csvRecordChars_length_ge cells
              simp only [List.length_append]
              omega)
            (by rintro c cs ⟨rfl, rfl⟩; decide)
          rw [hrr]
          simp only
          have hne2 : joinSep '\n' ((cells2 :: recs3).map csvRecordChars) ≠ [] := by
            rw [List.map_cons]
            refine joinSep_ne_nil _ _ _ ?_
            have h1 : 1 ≤ (cells2 : List (Option (List Char))).length := by
              have := hc cells2 (by simp)
              cases cells2 with
              | nil => exact absurd rfl this
              | cons x xs => simp
            have := csvRecordChars_length_ge cells2
            intro hnil
            rw [hnil] at this
            simp only [List.length_nil, Nat.le_zero] at this
            omega
          rw [if_neg hne2]
          rw [ih f (by simp) (fun x hx => hc x (by simp [hx]))
            (by simp only [List.length_cons] at hfuel ⊢; omega)]
          rfl

/-- C7: rendering any rows through the CSV writer (every cell quoted,
embedded quotes doubled, null as the empty string) and parsing the document
back per RFC 4180 reproduces the header labels and every field value
byte-for-byte, with nulls coming back as empty strings.  Headers are
non-empty (the writer throws otherwise) and each row carries one cell per
header, hence is non-empty. -/
theorem buildCsvDocument_roundtrip (rows : List (List (Option (List Char))))
    (headers : List (List Char)) (hh : headers ≠ [])
    (hrows : ∀ row ∈ rows, row ≠ []) :
    ∃ doc, buildCsvDocumentChars rows headers = some doc
      ∧ parseCsvRecords doc =
          some (headers :: rows.map fun row => row.map fun v => v.getD []) := by
  cases rows with
  | nil =>
      refine ⟨csvRecordChars (headers.map some) ++ ['\n'], ?_, ?_⟩
      · simp [buildCsvDocumentChars, hh]
      · rw [parseCsvRecords]
        simp only [parseCsvFuel]
        have hrr := parseRecordFuel_render (headers.map some)
          ((csvRecordChars (headers.map some) ++ ['\n']).length + 1) ['\n']
          (by simpa using hh)
          (by
            have := csvRecordChars_length_ge (headers.map some)
            simp only [List.length_append, List.length_map] at *
            omega)
          (by rintro c cs ⟨rfl, rfl⟩; decide)
        rw [hrr]
        simp only [List.map_map]
        rw [show ((fun v => Option.getD v []) ∘ some : List Char → List Char) = id from by
          funext x; rfl]
        simp
  | cons r rs =>
      refine ⟨joinSep '\n'
        ((csvRecordChars (headers.map some)) ::
          (r :: rs).map fun row => csvRecordChars (row.map fun v => some (v.getD []))), ?_, ?_⟩
      · simp [buildCsvDocumentChars, hh]
      · have hmain := parseCsvFuel_render
          ((headers.map some) :: (r :: rs).map fun row => row.map fun v => some (v.getD []))
          ((joinSep '\n'
            ((csvRecordChars (headers.map some)) ::
              (r :: rs).map fun row => csvRecordChars (row.map fun v => some (v.getD []))
            )).length + 1)
          (by simp)
          (by
            intro cells hcells
            rcases List.mem_cons.mp hcells with rfl | hmem
            · simpa using hh
            · simp only [List.mem_map] at hmem
              obtain ⟨row, hrow, rfl⟩ := hmem
              have := hrows row hrow
              simpa using this)
          (by
            have hlen := joinSep_length_ge '\n'
              ((csvRecordChars (headers.map some)) ::
                (r :: rs).map fun row => csvRecordChars (row.map fun v => some (v.getD [])))
              (by
                intro d hd
                rcases List.mem_cons.mp hd with rfl | hmem
                · intro hnil
                  have := csvRecordChars_length_ge (headers.map some)
                  rw [hnil] at this
                  simp at this
                  exact hh this
                · simp only [List.mem_map] at hmem
                  obtain ⟨row, hrow, rfl⟩ := hmem
                  intro hnil
                  have := csvRecordChars_length_ge (row.map fun v => some (v.getD []))
                  rw [hnil] at this
                  simp at this
                  exact hrows row hrow this)
            simp only [List.length_cons, List.length_map] at hlen ⊢
            omega)
        rw [parseCsvRecords]
        rw [show ((headers.map some) ::
              (r :: rs).map fun row => row.map fun v => some (v.getD [])).map csvRecordChars =
            (csvRecordChars (headers.map some)) ::
              (r :: rs).map fun row => csvRecordChars (row.map fun v => some (v.getD []))
          from by simp [List.map_map, Function.comp]] at hmain
        rw [hmain]
        simp only [List.map_cons, List.map_map]
        rw [show ((fun v => Option.getD v []) ∘ some : List Char → List Char) = id from by
          funext x; rfl]
        rw [show ((fun v => Option.getD v []) ∘ fun v => some (v.getD []) :
              Option (List Char) → List Char) = fun v => v.getD [] from by
          funext x; rfl]
        simp

/-- Witness for C7: a document with one header and one row holding a text
cell and a null cell round-trips. -/
theorem buildCsvDocument_roundtrip_witness :
    ∃ doc, buildCsvDocumentChars [[some ['a', 'b'], none]] [['H']] = some doc
      ∧ parseCsvRecords doc =
          some ([['H']] ::
            ([[some ['a', 'b'], none]].map fun row => row.map fun v => v.getD [])) :=
  buildCsvDocument_roundtrip [[some ['a', 'b'], none]] [['H']]
    (by decide) (by intro row hrow; simp only [List.mem_singleton] at hrow; simp [hrow])

end Attendease
